import Mathlib

/-!
Verification of the consumer-side processing engine of the
Event_Analytics_Platform repository: error classification
(internal/messaging/errors.go), retry policy (internal/messaging retry
code), dead-letter envelope construction (internal/messaging dlq code),
and the processing loop (cmd/event-consumer/main.go), embedded shallowly
as executable Lean definitions.
-/

namespace EventAnalytics

/-- ErrorKind from internal/messaging/errors.go: a two-valued
classification of processing failures. -/
inductive ErrorKind
  | transient
  | permanent
deriving DecidableEq, Repr

/-- ErrorKind.String from errors.go (the default "unknown" branch is
unreachable for the two declared constants). -/
def ErrorKind.str : ErrorKind → String
  | .transient => "transient"
  | .permanent => "permanent"

/-- Model of the Go error values that reach the classifier: a
ProcessingError (kind, message, optional cause), a net.Error, the io and
syscall sentinel errors tested in errors.go, an error wrapped by
fmt.Errorf with a context text and a wrapped cause, or a plain error
built by errors.New. -/
inductive GoError
  | processing (kind : ErrorKind) (message : String) (cause : GoError)
  | processingNil (kind : ErrorKind) (message : String)
  | net (message : String)
  | ioEOFErr
  | ioUnexpectedEOFErr
  | econnrefused
  | econnreset
  | wrapped (context : String) (cause : GoError)
  | plain (message : String)
deriving DecidableEq, Repr

/-- The Error() string of each error value. ProcessingError formats as
"[kind] message: cause" with a nil cause printed as "<nil>"; a wrapped
error prepends its context text (including the separator) to the cause
string; the sentinels carry their Go standard-library texts. -/
def GoError.errString : GoError → String
  | .processing k m c => "[" ++ k.str ++ "] " ++ m ++ ": " ++ c.errString
  | .processingNil k m => "[" ++ k.str ++ "] " ++ m ++ ": <nil>"
  | .net m => m
  | .ioEOFErr => "EOF"
  | .ioUnexpectedEOFErr => "unexpected EOF"
  | .econnrefused => "connection refused"
  | .econnreset => "connection reset by peer"
  | .wrapped ctx c => ctx ++ c.errString
  | .plain m => m

/-- errors.As with a *ProcessingError target: checks the error itself,
then walks the Unwrap chain (ProcessingError unwraps to its cause,
fmt.Errorf-wrapped errors unwrap to the wrapped error), returning the
kind of the first ProcessingError found. -/
def GoError.asProcessing : GoError → Option ErrorKind
  | .processing k _ _ => some k
  | .processingNil k _ => some k
  | .wrapped _ c => c.asProcessing
  | _ => none

/-- errors.As with a net.Error target: checks the error itself, then
walks the Unwrap chain. -/
def GoError.isNet : GoError → Bool
  | .net _ => true
  | .wrapped _ c => c.isNet
  | .processing _ _ c => c.isNet
  | _ => false

/-- errors.Is: the error equals the target, or some error in its Unwrap
chain does. -/
def GoError.isErr : GoError → GoError → Bool
  | e@(.processing _ _ c), target => e == target || c.isErr target
  | e@(.wrapped _ c), target => e == target || c.isErr target
  | e, target => e == target

/-- strings-package substring containment on character lists (Go
strings.Contains): the pattern occurs as a contiguous run. -/
def listHasInfix (pat : List Char) : List Char → Bool
  | [] => pat.isEmpty
  | c :: rest => pat.isPrefixOf (c :: rest) || listHasInfix pat rest

/-- Go strings.Contains on strings. -/
def strContains (s pat : String) : Bool :=
  listHasInfix pat.toList s.toList

/-- Classify from internal/messaging/errors.go. A nil error (modelled as
none) is transient; an error that is or wraps a ProcessingError returns
its declared kind; network and io/syscall sentinel errors are transient;
then the stringified form is tested for the permanent substrings, then
the transient substrings; everything else defaults to transient. -/
def Classify (e : Option GoError) : ErrorKind :=
  match e with
  | none => .transient
  | some err =>
    match err.asProcessing with
    | some k => k
    | none =>
      if err.isNet then .transient
      else if err.isErr .ioUnexpectedEOFErr || err.isErr .ioEOFErr then .transient
      else if err.isErr .econnrefused || err.isErr .econnreset then .transient
      else
        if strContains err.errString "unique constraint" ||
           strContains err.errString "violates check constraint" ||
           strContains err.errString "invalid input syntax" then .permanent
        else if strContains err.errString "connection refused" ||
                strContains err.errString "connection reset" ||
                strContains err.errString "timeout" ||
                strContains err.errString "too many clients" then .transient
        else .transient

/-- RetryConfig from the retry code: MaxRetries is a Go int; the
durations and the float64 fields are modelled as exact rationals, with
durations measured in milliseconds. -/
structure RetryConfig where
  MaxRetries : Int
  BaseDelay : ℚ
  MaxDelay : ℚ
  Multiplier : ℚ
  JitterRatio : ℚ
deriving DecidableEq, Repr

/-- DefaultRetryConfig: 5 retries, 200 ms base, 10 s cap, factor 2,
jitter fraction 0.3. -/
def DefaultRetryConfig : RetryConfig :=
  { MaxRetries := 5
    BaseDelay := 200
    MaxDelay := 10000
    Multiplier := 2
    JitterRatio := mkRat 3 10 }

/-- ShouldRetry from the retry code: the kind is transient and the
0-indexed attempt count is below the budget. -/
def RetryConfig.ShouldRetry (rc : RetryConfig) (kind : ErrorKind) (attempt : Int) : Bool :=
  kind == .transient && attempt < rc.MaxRetries

/-- BackoffDelay from the retry code, with the rand.Float64 draw passed
in as rnd: exponential growth clamped above by MaxDelay, a uniform
jitter of plus or minus JitterRatio times the clamped delay applied
after clamping, and the result replaced by BaseDelay if the jittered
value falls below zero. -/
def RetryConfig.BackoffDelay (rc : RetryConfig) (attempt : ℕ) (rnd : ℚ) : ℚ :=
  let delay := rc.BaseDelay * rc.Multiplier ^ attempt
  let clamped := if delay > rc.MaxDelay then rc.MaxDelay else delay
  let jitter := clamped * rc.JitterRatio * (rnd * 2 - 1)
  let jittered := clamped + jitter
  if jittered < 0 then rc.BaseDelay else jittered

/-- Outcome of RetryConfig.Sleep: the timer completed, or the
cancellation signal fired first and the sleep returned the context
error without waiting out the delay. -/
inductive SleepOutcome
  | completed
  | canceledErr
deriving DecidableEq, Repr

/-- RetryConfig.Sleep selects between the back-off timer and the
cancellation signal; cancelFires records which side of the select wins. -/
def RetryConfig.SleepModel (cancelFires : Bool) : SleepOutcome :=
  if cancelFires then .canceledErr else .completed

/-- The event value decoded from a fetched record (cmd/event-consumer
event struct): event_id, event_type, and an opaque payload modelled as
raw bytes. -/
structure Event where
  eventID : String
  eventType : String
  payload : List ℕ
deriving DecidableEq, Repr

/-- A fetched kafka.Message as the consumer sees it: topic, partition,
offset, key, and the raw value bytes. -/
structure KafkaMessage where
  topic : String
  partition : Int
  offset : Int
  key : String
  value : List ℕ
deriving DecidableEq, Repr

/-- DLQMessage from the dead-letter producer code: the forensic envelope
wrapping the original message with failure metadata. FailedAt (time.Now)
is modelled as an integer timestamp. -/
structure DLQMessage where
  OriginalTopic : String
  OriginalPartition : Int
  OriginalOffset : Int
  OriginalKey : String
  OriginalValue : List ℕ
  ErrorMessage : String
  ErrorKind : String
  Retries : Int
  FailedAt : Int
deriving DecidableEq, Repr

/-- The envelope DLQProducer.Send constructs from the original message,
the reason error, the kind, and the retries count. -/
def buildDLQEnvelope (original : KafkaMessage) (reason : GoError) (kind : ErrorKind)
    (retries : Int) (now : Int) : DLQMessage :=
  { OriginalTopic := original.topic
    OriginalPartition := original.partition
    OriginalOffset := original.offset
    OriginalKey := original.key
    OriginalValue := original.value
    ErrorMessage := reason.errString
    ErrorKind := kind.str
    Retries := retries
    FailedAt := now }

/-- The external world the processing loop interacts with: the result of
json.Unmarshal on the record value, the result of the n-th
db.InsertEvent call, the result of DLQProducer.Send, the result of
CommitMessage, whether the cancellation signal fires during the retry
sleep before attempt n+1, and the clock. The source function sendToDLQ
logs and then DISCARDS the error returned by Send, so the trace below
does not depend on dlqSendErr; likewise commit errors are only logged. -/
structure ProcEnv where
  decode : List ℕ → Except GoError Event
  insertResult : ℕ → Option GoError
  dlqSendErr : Option GoError
  commitErr : Option GoError
  sleepCancelled : ℕ → Bool
  now : Int

/-- One recorded call to db.InsertEvent. -/
structure InsertCall where
  eventID : String
  eventType : String
  payload : List ℕ
deriving DecidableEq, Repr

/-- Observable trace of one processMessage run: the store-insert calls
made, the DLQ envelopes whose send was attempted, and whether
CommitMessage was called for the record. -/
structure ProcTrace where
  insertCalls : List InsertCall
  dlqSends : List DLQMessage
  commitCalled : Bool
deriving DecidableEq, Repr

/-- The bounded retry loop of processMessage (cmd/event-consumer
main.go): attempt is the 0-indexed attempt counter, acc the insert calls
made so far. Fuel is an upper bound on the remaining iterations; the
loop re-enters only when ShouldRetry holds, i.e. when attempt is below
MaxRetries, so starting fuel MaxRetries.toNat + 1 is never exhausted
(fuelSufficient below). On success the offset is committed; a permanent
classification or an exhausted budget routes to the DLQ and commits; a
cancellation during the back-off sleep exits with neither a DLQ attempt
nor a commit. -/
def processLoop (rc : RetryConfig) (env : ProcEnv) (msg : KafkaMessage) (evt : Event)
    (attempt : ℕ) (fuel : ℕ) (acc : List InsertCall) : ProcTrace :=
  match fuel with
  | 0 => { insertCalls := acc, dlqSends := [], commitCalled := false }
  | fuel + 1 =>
    let acc2 := acc ++ [{ eventID := evt.eventID, eventType := evt.eventType, payload := evt.payload }]
    match env.insertResult attempt with
    | none => { insertCalls := acc2, dlqSends := [], commitCalled := true }
    | some lastErr =>
      let kind := Classify (some lastErr)
      if kind = .permanent then
        { insertCalls := acc2
          dlqSends := [buildDLQEnvelope msg lastErr kind ((attempt : Int) + 1) env.now]
          commitCalled := true }
      else if ¬ rc.ShouldRetry kind (attempt : Int) then
        { insertCalls := acc2
          dlqSends := [buildDLQEnvelope msg lastErr kind ((attempt : Int) + 1) env.now]
          commitCalled := true }
      else if env.sleepCancelled attempt then
        { insertCalls := acc2, dlqSends := [], commitCalled := false }
      else
        processLoop rc env msg evt (attempt + 1) fuel acc2

/-- processMessage from cmd/event-consumer/main.go: a record whose value
does not unmarshal is routed to the DLQ as a poison pill with the
unmarshal error, kind permanent and retries 0, and the offset is
committed; a record with an empty event_id or event_type is routed with
a NewPermanent("missing required fields", nil) error, kind permanent and
retries 0, and committed; otherwise the bounded retry loop runs. -/
def processMessage (rc : RetryConfig) (env : ProcEnv) (msg : KafkaMessage) : ProcTrace :=
  match env.decode msg.value with
  | .error e =>
      { insertCalls := []
        dlqSends := [buildDLQEnvelope msg e .permanent 0 env.now]
        commitCalled := true }
  | .ok evt =>
      if evt.eventID = "" ∨ evt.eventType = "" then
        { insertCalls := []
          dlqSends := [buildDLQEnvelope msg (.processingNil .permanent "missing required fields") .permanent 0 env.now]
          commitCalled := true }
      else
        processLoop rc env msg evt 0 (rc.MaxRetries.toNat + 1) []

/-- The insignificant whitespace bytes of the Go encoding/json scanner
(space, tab, carriage return, line feed). -/
def isWSByte (c : ℕ) : Bool :=
  c = 32 || c = 9 || c = 13 || c = 10

/-- Drop leading insignificant whitespace bytes. -/
def skipWS : List ℕ → List ℕ
  | [] => []
  | c :: rest => if isWSByte c then skipWS rest else c :: rest

/-- A hexadecimal digit byte. -/
def isHexByte (c : ℕ) : Bool :=
  (48 ≤ c && c ≤ 57) || (97 ≤ c && c ≤ 102) || (65 ≤ c && c ≤ 70)

/-- The HTML escaping the Go marshaller applies to every content byte:
the angle brackets 60 and 62 and the ampersand 38 are replaced by their
six-byte backslash-u00XX forms with lower-case hex. -/
def escByte (c : ℕ) : List ℕ :=
  if c = 60 then [92, 117, 48, 48, 51, 99]
  else if c = 62 then [92, 117, 48, 48, 51, 101]
  else if c = 38 then [92, 117, 48, 48, 50, 54]
  else [c]

/-- Scan a JSON string body after the opening quote, as the Go scanner
plus the compacting writer do: valid backslash escapes are copied, raw
angle brackets and ampersands are HTML-escaped, the three-byte
U+2028/U+2029 sequences become backslash-u202X escapes, a raw control
byte (below 32) is an error, and every other byte (including non-ASCII)
is copied; returns the emitted content with its closing quote and the
rest of the input. -/
def lexString : List ℕ → Option (List ℕ × List ℕ)
  | [] => none
  | 34 :: rest => some ([34], rest)
  | 92 :: c :: rest =>
      if c = 34 || c = 92 || c = 47 || c = 98 || c = 102 || c = 110 || c = 114 || c = 116 then
        match lexString rest with
        | some (out, r) => some (92 :: c :: out, r)
        | none => none
      else if c = 117 then
        match rest with
        | h1 :: h2 :: h3 :: h4 :: rest2 =>
            if isHexByte h1 && isHexByte h2 && isHexByte h3 && isHexByte h4 then
              match lexString rest2 with
              | some (out, r) => some (92 :: 117 :: h1 :: h2 :: h3 :: h4 :: out, r)
              | none => none
            else none
        | _ => none
      else none
  | 226 :: 128 :: a :: rest =>
      if a = 168 || a = 169 then
        match lexString rest with
        | some (out, r) =>
            some ([92, 117, 50, 48, 50, if a = 168 then 56 else 57] ++ out, r)
        | none => none
      else
        match lexString (128 :: a :: rest) with
        | some (out, r) => some (226 :: out, r)
        | none => none
  | c :: rest =>
      if c < 32 then none
      else
        match lexString rest with
        | some (out, r) => some (escByte c ++ out, r)
        | none => none

/-- Take the longest run of decimal digit bytes. -/
def lexDigits : List ℕ → (List ℕ × List ℕ)
  | [] => ([], [])
  | c :: rest =>
      if 48 ≤ c && c ≤ 57 then
        match lexDigits rest with
        | (ds, r) => (c :: ds, r)
      else ([], c :: rest)

/-- Optional exponent of a JSON number: e or E, an optional sign, and
at least one digit, emitted verbatim after acc. -/
def parseNumberExpTail (acc : List ℕ) (e : ℕ) (s : List ℕ) : Option (List ℕ × List ℕ) :=
  match (match s with
         | 43 :: t => ([43], t)
         | 45 :: t => ([45], t)
         | _ => (([] : List ℕ), s)) with
  | (sgn, s1) =>
      match lexDigits s1 with
      | ([], _) => none
      | (ds, r) => some (acc ++ e :: (sgn ++ ds), r)

/-- Dispatch on an exponent marker. -/
def parseNumberExp (acc : List ℕ) (s : List ℕ) : Option (List ℕ × List ℕ) :=
  match s with
  | 101 :: t => parseNumberExpTail acc 101 t
  | 69 :: t => parseNumberExpTail acc 69 t
  | _ => some (acc, s)

/-- Optional fraction of a JSON number: a dot followed by at least one
digit, then the optional exponent. -/
def parseNumberFrac (acc : List ℕ) (s : List ℕ) : Option (List ℕ × List ℕ) :=
  match s with
  | 46 :: t =>
      match lexDigits t with
      | ([], _) => none
      | (ds, r) => parseNumberExp (acc ++ 46 :: ds) r
  | _ => parseNumberExp acc s

/-- A JSON number per the Go scanner grammar: an optional minus, an
integer part that is a lone zero or starts with a nonzero digit, then
the optional fraction and exponent; emitted verbatim. -/
def parseNumber (s : List ℕ) : Option (List ℕ × List ℕ) :=
  match (match s with
         | 45 :: t => ([45], t)
         | _ => (([] : List ℕ), s)) with
  | (negOut, s1) =>
      match s1 with
      | 48 :: t2 => parseNumberFrac (negOut ++ [48]) t2
      | c :: t2 =>
          if 49 ≤ c && c ≤ 57 then
            match lexDigits t2 with
            | (ds, r) => parseNumberFrac (negOut ++ c :: ds) r
          else none
      | [] => none

mutual

/-- One JSON value, compacted: leading whitespace elided, then a
literal, string, number, array or object, as in the Go scanner; fuel
bounds the nesting and 2 * length + 2 always suffices because every
recursive call is preceded by consuming at least one byte. -/
def parseValue : ℕ → List ℕ → Option (List ℕ × List ℕ)
  | 0, _ => none
  | fuel + 1, s =>
    match skipWS s with
    | 110 :: 117 :: 108 :: 108 :: rest => some ([110, 117, 108, 108], rest)
    | 116 :: 114 :: 117 :: 101 :: rest => some ([116, 114, 117, 101], rest)
    | 102 :: 97 :: 108 :: 115 :: 101 :: rest => some ([102, 97, 108, 115, 101], rest)
    | 34 :: rest =>
        match lexString rest with
        | some (out, r) => some (34 :: out, r)
        | none => none
    | 91 :: rest =>
        match skipWS rest with
        | 93 :: r2 => some ([91, 93], r2)
        | _ =>
            match parseElems fuel rest with
            | some (out, r3) => some (91 :: out, r3)
            | none => none
    | 123 :: rest =>
        match skipWS rest with
        | 125 :: r2 => some ([123, 125], r2)
        | _ =>
            match parseMembers fuel rest with
            | some (out, r3) => some (123 :: out, r3)
            | none => none
    | 45 :: rest => parseNumber (45 :: rest)
    | c :: rest =>
        if 48 ≤ c && c ≤ 57 then parseNumber (c :: rest)
        else none
    | [] => none

/-- The comma-separated elements of a nonempty array together with the
closing bracket, compacted. -/
def parseElems : ℕ → List ℕ → Option (List ℕ × List ℕ)
  | 0, _ => none
  | fuel + 1, s =>
    match parseValue fuel s with
    | none => none
    | some (out, r) =>
        match skipWS r with
        | 44 :: r2 =>
            match parseElems fuel r2 with
            | some (out2, r3) => some (out ++ 44 :: out2, r3)
            | none => none
        | 93 :: r2 => some (out ++ [93], r2)
        | _ => none

/-- The comma-separated members of a nonempty object together with the
closing brace, compacted: each member is a string key, a colon and a
value. -/
def parseMembers : ℕ → List ℕ → Option (List ℕ × List ℕ)
  | 0, _ => none
  | fuel + 1, s =>
    match skipWS s with
    | 34 :: rest =>
        match lexString rest with
        | none => none
        | some (kout, r) =>
            match skipWS r with
            | 58 :: r2 =>
                match parseValue fuel r2 with
                | none => none
                | some (vout, r3) =>
                    match skipWS r3 with
                    | 44 :: r4 =>
                        match parseMembers fuel r4 with
                        | some (out2, r5) =>
                            some ((34 :: kout) ++ (58 :: vout) ++ 44 :: out2, r5)
                        | none => none
                    | 125 :: r4 => some ((34 :: kout) ++ (58 :: vout) ++ [125], r4)
                    | _ => none
            | _ => none
    | _ => none

end

/-- Modelled from the Go encoding/json marshaller applied to a
json.RawMessage (the appendCompact path with HTML escaping used by
json.Marshal): the raw bytes must form exactly one JSON value followed
only by whitespace; insignificant whitespace is elided, angle brackets,
ampersands and the U+2028/U+2029 sequences are escaped, and anything
else is copied verbatim; bytes that are not valid JSON are a marshal
error (none), which in DLQProducer.Send aborts the send with an error. -/
def rawMarshal (v : List ℕ) : Option (List ℕ) :=
  match parseValue (2 * v.length + 2) v with
  | some (out, rest) => if skipWS rest = [] then some out else none
  | none => none

/-- The self-describing structured wire document (JSON) at the value
level: strings, integers, raw byte runs, and objects with named fields.
A jraw node carries the exact bytes standing in the document at that
field, which json.Unmarshal hands to a RawMessage verbatim. -/
inductive JsonVal
  | jstr (s : String)
  | jint (n : Int)
  | jraw (bytes : List ℕ)
  | jobj (fields : List (String × JsonVal))

/-- Field lookup by name in a JSON object, as json.Unmarshal resolves
struct tags. -/
def lookupField (name : String) : List (String × JsonVal) → Option JsonVal
  | [] => none
  | (n, v) :: rest => if n = name then some v else lookupField name rest

/-- Extract a string field. -/
def JsonVal.asStr : JsonVal → Option String
  | .jstr s => some s
  | _ => none

/-- Extract an integer field. -/
def JsonVal.asInt : JsonVal → Option Int
  | .jint n => some n
  | _ => none

/-- Extract a raw-bytes field. -/
def JsonVal.asRaw : JsonVal → Option (List ℕ)
  | .jraw b => some b
  | _ => none

/-- json.Marshal of a DLQMessage: an object with the struct-tag field
names of the dead-letter producer code. The original_value field is a
json.RawMessage, which the marshaller re-encodes through rawMarshal
(compacting and HTML-escaping it) and which makes the whole Marshal
fail when the raw bytes are not valid JSON. -/
def encodeDLQ (e : DLQMessage) : Option JsonVal :=
  match rawMarshal e.OriginalValue with
  | none => none
  | some w =>
      some (.jobj [("original_topic", .jstr e.OriginalTopic),
                   ("original_partition", .jint e.OriginalPartition),
                   ("original_offset", .jint e.OriginalOffset),
                   ("original_key", .jstr e.OriginalKey),
                   ("original_value", .jraw w),
                   ("error_message", .jstr e.ErrorMessage),
                   ("error_kind", .jstr e.ErrorKind),
                   ("retries", .jint e.Retries),
                   ("failed_at", .jint e.FailedAt)])

/-- Look a field up and require a string. -/
def fieldStr (name : String) (fields : List (String × JsonVal)) : Option String :=
  match lookupField name fields with
  | some v => v.asStr
  | none => none

/-- Look a field up and require an integer. -/
def fieldInt (name : String) (fields : List (String × JsonVal)) : Option Int :=
  match lookupField name fields with
  | some v => v.asInt
  | none => none

/-- Look a field up and require raw bytes. -/
def fieldRaw (name : String) (fields : List (String × JsonVal)) : Option (List ℕ) :=
  match lookupField name fields with
  | some v => v.asRaw
  | none => none

/-- json.Unmarshal of a DLQMessage document: looks each tagged field up
by name and requires the matching shape. -/
def decodeDLQ (v : JsonVal) : Option DLQMessage :=
  match v with
  | .jobj fields =>
      match fieldStr "original_topic" fields, fieldInt "original_partition" fields,
            fieldInt "original_offset" fields, fieldStr "original_key" fields,
            fieldRaw "original_value" fields, fieldStr "error_message" fields,
            fieldStr "error_kind" fields, fieldInt "retries" fields,
            fieldInt "failed_at" fields with
      | some t, some p, some o, some k, some val, some em, some ek, some r, some fa =>
          some { OriginalTopic := t, OriginalPartition := p, OriginalOffset := o,
                 OriginalKey := k, OriginalValue := val, ErrorMessage := em,
                 ErrorKind := ek, Retries := r, FailedAt := fa }
      | _, _, _, _, _, _, _, _, _ => none
  | _ => none

/-- A hexadecimal digit. -/
def isHexDigit (c : Char) : Bool :=
  (decide ('0' ≤ c) && decide (c ≤ '9')) ||
  (decide ('a' ≤ c) && decide (c ≤ 'f')) ||
  (decide ('A' ≤ c) && decide (c ≤ 'F'))

/-- Modelled from the spec: event_id must be a valid UUID. This models
the external google/uuid Parse check used by the ingestion handler
(which is not part of this repository), restricted to the canonical
dashed form: 36 characters, hyphens at positions 8, 13, 18 and 23, hex
digits elsewhere. -/
def isValidUUID (s : String) : Bool :=
  let cs := s.toList
  cs.length = 36 &&
  (List.range 36).all fun i =>
    if i = 8 ∨ i = 13 ∨ i = 18 ∨ i = 23 then cs.getD i ' ' = '-'
    else isHexDigit (cs.getD i ' ')

/-- The request body of the ingestion handler (EventRequest in the
handlers package): event_id, event_type, payload. -/
structure EventRequest where
  eventID : String
  eventType : String
  payload : List ℕ
deriving DecidableEq, Repr

/-- Outcome of the ingestion handler: 400 for a body that does not
decode, 400 for an event_id that does not parse as a UUID, or 202 with
the request published to the log. -/
inductive HandleResult
  | badRequestJSON
  | badRequestUUID
  | accepted (req : EventRequest)
deriving DecidableEq, Repr

/-- HandleEvent from the ingestion handlers package: decodes the body,
rejects an event_id that does not parse as a UUID with 400, and
otherwise responds 202 and publishes the request. -/
def HandleEvent (body : Except GoError EventRequest) : HandleResult :=
  match body with
  | .error _ => .badRequestJSON
  | .ok req =>
      if isValidUUID req.eventID then .accepted req else .badRequestUUID

/-- A chain of fmt.Errorf wrappings around a base error. -/
def wrapChain : List String → GoError → GoError
  | [], e => e
  | c :: cs, e => .wrapped c (wrapChain cs e)

/-- The one insert call appended at each loop iteration. -/
def callOf (evt : Event) : InsertCall :=
  { eventID := evt.eventID, eventType := evt.eventType, payload := evt.payload }

/-- Unfolding equation: exhausted fuel. -/
theorem processLoop_fuelZero (rc : RetryConfig) (env : ProcEnv) (msg : KafkaMessage)
    (evt : Event) (attempt : ℕ) (acc : List InsertCall) :
    processLoop rc env msg evt attempt 0 acc =
      { insertCalls := acc, dlqSends := [], commitCalled := false } := rfl

/-- Unfolding equation: the insert succeeds and the offset is committed. -/
theorem processLoop_succOk (rc : RetryConfig) (env : ProcEnv) (msg : KafkaMessage)
    (evt : Event) (attempt fuel : ℕ) (acc : List InsertCall)
    (hres : env.insertResult attempt = none) :
    processLoop rc env msg evt attempt (fuel + 1) acc =
      { insertCalls := acc ++ [callOf evt], dlqSends := [], commitCalled := true } := by
  rw [processLoop, hres]
  simp [callOf]

/-- Unfolding equation: the insert fails with a permanent classification;
the record is routed to the DLQ with retries attempt + 1 and committed. -/
theorem processLoop_succPerm (rc : RetryConfig) (env : ProcEnv) (msg : KafkaMessage)
    (evt : Event) (attempt fuel : ℕ) (acc : List InsertCall) (lastErr : GoError)
    (hres : env.insertResult attempt = some lastErr)
    (hkp : Classify (some lastErr) = .permanent) :
    processLoop rc env msg evt attempt (fuel + 1) acc =
      { insertCalls := acc ++ [callOf evt]
        dlqSends := [buildDLQEnvelope msg lastErr .permanent ((attempt : Int) + 1) env.now]
        commitCalled := true } := by
  rw [processLoop, hres]
  simp [hkp, callOf]

/-- Unfolding equation: the insert fails, the classification is not
permanent, and the retry budget does not permit another attempt; the
record is routed to the DLQ with retries attempt + 1 and committed. -/
theorem processLoop_succExhaust (rc : RetryConfig) (env : ProcEnv) (msg : KafkaMessage)
    (evt : Event) (attempt fuel : ℕ) (acc : List InsertCall) (lastErr : GoError)
    (hres : env.insertResult attempt = some lastErr)
    (hkp : Classify (some lastErr) ≠ .permanent)
    (hsr : rc.ShouldRetry (Classify (some lastErr)) (attempt : Int) = false) :
    processLoop rc env msg evt attempt (fuel + 1) acc =
      { insertCalls := acc ++ [callOf evt]
        dlqSends := [buildDLQEnvelope msg lastErr (Classify (some lastErr)) ((attempt : Int) + 1) env.now]
        commitCalled := true } := by
  rw [processLoop, hres]
  simp only [if_neg hkp, hsr, callOf]
  simp

/-- Unfolding equation: a transient failure with budget remaining, but
the cancellation signal fires during the back-off sleep; the loop exits
with no commit and no DLQ attempt. -/
theorem processLoop_succCancel (rc : RetryConfig) (env : ProcEnv) (msg : KafkaMessage)
    (evt : Event) (attempt fuel : ℕ) (acc : List InsertCall) (lastErr : GoError)
    (hres : env.insertResult attempt = some lastErr)
    (hkp : Classify (some lastErr) ≠ .permanent)
    (hsr : rc.ShouldRetry (Classify (some lastErr)) (attempt : Int) = true)
    (hsc : env.sleepCancelled attempt = true) :
    processLoop rc env msg evt attempt (fuel + 1) acc =
      { insertCalls := acc ++ [callOf evt], dlqSends := [], commitCalled := false } := by
  rw [processLoop, hres]
  simp only [if_neg hkp, hsr, hsc, callOf]
  simp

/-- Unfolding equation: a transient failure with budget remaining and an
uninterrupted sleep; the loop re-enters at the next attempt. -/
theorem processLoop_succStep (rc : RetryConfig) (env : ProcEnv) (msg : KafkaMessage)
    (evt : Event) (attempt fuel : ℕ) (acc : List InsertCall) (lastErr : GoError)
    (hres : env.insertResult attempt = some lastErr)
    (hkp : Classify (some lastErr) ≠ .permanent)
    (hsr : rc.ShouldRetry (Classify (some lastErr)) (attempt : Int) = true)
    (hsc : env.sleepCancelled attempt = false) :
    processLoop rc env msg evt attempt (fuel + 1) acc =
      processLoop rc env msg evt (attempt + 1) fuel (acc ++ [callOf evt]) := by
  rw [processLoop, hres]
  simp only [if_neg hkp, hsr, hsc, callOf]
  simp

/-- Loop invariant: when the accumulator length tracks the attempt
index, a DLQ envelope emitted by the retry loop records exactly as many
retries as the total number of insert calls in the trace. -/
theorem processLoop_dlq_retries (rc : RetryConfig) (env : ProcEnv) (msg : KafkaMessage)
    (evt : Event) :
    ∀ (fuel attempt : ℕ) (acc : List InsertCall), acc.length = attempt →
      ∀ e ∈ (processLoop rc env msg evt attempt fuel acc).dlqSends,
        e.Retries = ((processLoop rc env msg evt attempt fuel acc).insertCalls.length : Int) := by
  intro fuel
  induction fuel with
  | zero =>
      intro attempt acc hlen e he
      simp [processLoop_fuelZero] at he
  | succ fuel ih =>
      intro attempt acc hlen e he
      rcases hres : env.insertResult attempt with _ | lastErr
      · rw [processLoop_succOk rc env msg evt attempt fuel acc hres] at he
        simp at he
      · by_cases hkp : Classify (some lastErr) = .permanent
        · rw [processLoop_succPerm rc env msg evt attempt fuel acc lastErr hres hkp] at he ⊢
          simp at he
          subst he
          simp [buildDLQEnvelope, hlen]
        · rcases hsr : rc.ShouldRetry (Classify (some lastErr)) (attempt : Int) with _ | _
          · rw [processLoop_succExhaust rc env msg evt attempt fuel acc lastErr hres hkp hsr] at he ⊢
            simp at he
            subst he
            simp [buildDLQEnvelope, hlen]
          · rcases hsc : env.sleepCancelled attempt with _ | _
            · rw [processLoop_succStep rc env msg evt attempt fuel acc lastErr hres hkp hsr hsc] at he ⊢
              exact ih (attempt + 1) (acc ++ [callOf evt]) (by simp [hlen]) e he
            · rw [processLoop_succCancel rc env msg evt attempt fuel acc lastErr hres hkp hsr hsc] at he
              simp at he

/-- Loop invariant: when every insert attempt fails with a
transient-classified error and the sleep is never cancelled, the loop
exhausts the budget and routes to the DLQ with retries MaxRetries + 1,
kind transient, and a commit. -/
theorem processLoop_transient_exhausted (rc : RetryConfig) (env : ProcEnv) (msg : KafkaMessage)
    (evt : Event)
    (hins : ∀ n : ℕ, ∃ err, env.insertResult n = some err ∧ Classify (some err) = .transient)
    (hsleep : ∀ n : ℕ, env.sleepCancelled n = false) :
    ∀ (fuel attempt : ℕ) (acc : List InsertCall),
      (attempt : Int) ≤ rc.MaxRetries → (fuel : Int) + attempt = rc.MaxRetries + 1 →
      ∃ e, (processLoop rc env msg evt attempt fuel acc).dlqSends = [e] ∧
        e.Retries = rc.MaxRetries + 1 ∧ e.ErrorKind = "transient" ∧
        (processLoop rc env msg evt attempt fuel acc).commitCalled = true := by
  intro fuel
  induction fuel with
  | zero =>
      intro attempt acc hle hsum
      exfalso
      omega
  | succ fuel ih =>
      intro attempt acc hle hsum
      obtain ⟨err, hres, hkt⟩ := hins attempt
      have hknp : Classify (some err) ≠ .permanent := by rw [hkt]; intro h; cases h
      by_cases hlast : (attempt : Int) = rc.MaxRetries
      · have hsr : rc.ShouldRetry (Classify (some err)) (attempt : Int) = false := by
          rw [hkt]
          simp [RetryConfig.ShouldRetry, hlast]
        rw [processLoop_succExhaust rc env msg evt attempt fuel acc err hres hknp hsr]
        refine ⟨_, rfl, ?_, ?_, rfl⟩
        · simp [buildDLQEnvelope, hlast]
        · simp [buildDLQEnvelope, hkt, ErrorKind.str]
      · have hlt : (attempt : Int) < rc.MaxRetries := lt_of_le_of_ne hle hlast
        have hsr : rc.ShouldRetry (Classify (some err)) (attempt : Int) = true := by
          rw [hkt]
          simp [RetryConfig.ShouldRetry, hlt]
        rw [processLoop_succStep rc env msg evt attempt fuel acc err hres hknp hsr (hsleep attempt)]
        exact ih (attempt + 1) (acc ++ [callOf evt]) (by push_cast; omega) (by push_cast at hsum ⊢; omega)

/-- Loop invariant: when attempts up to j fail with transient errors
inside the budget, earlier sleeps complete, and the sleep after attempt
j is cancelled, the loop exits with no commit and no DLQ attempt. -/
theorem processLoop_cancel_aborts (rc : RetryConfig) (env : ProcEnv) (msg : KafkaMessage)
    (evt : Event) (j : ℕ)
    (hins : ∀ i : ℕ, i ≤ j → ∃ err, env.insertResult i = some err ∧ Classify (some err) = .transient)
    (hsleep : ∀ i : ℕ, i < j → env.sleepCancelled i = false)
    (hcj : env.sleepCancelled j = true)
    (hjM : (j : Int) < rc.MaxRetries) :
    ∀ (fuel attempt : ℕ) (acc : List InsertCall),
      attempt ≤ j → (fuel : Int) + attempt = rc.MaxRetries + 1 →
      (processLoop rc env msg evt attempt fuel acc).commitCalled = false ∧
        (processLoop rc env msg evt attempt fuel acc).dlqSends = [] := by
  intro fuel
  induction fuel with
  | zero =>
      intro attempt acc hle hsum
      exfalso
      omega
  | succ fuel ih =>
      intro attempt acc hle hsum
      obtain ⟨err, hres, hkt⟩ := hins attempt hle
      have hknp : Classify (some err) ≠ .permanent := by rw [hkt]; intro h; cases h
      have hlt : (attempt : Int) < rc.MaxRetries := by
        have : (attempt : Int) ≤ (j : Int) := by exact_mod_cast hle
        omega
      have hsr : rc.ShouldRetry (Classify (some err)) (attempt : Int) = true := by
        rw [hkt]
        simp [RetryConfig.ShouldRetry, hlt]
      by_cases haj : attempt = j
      · subst haj
        rw [processLoop_succCancel rc env msg evt attempt fuel acc err hres hknp hsr hcj]
        exact ⟨rfl, rfl⟩
      · have hltj : attempt < j := lt_of_le_of_ne hle haj
        rw [processLoop_succStep rc env msg evt attempt fuel acc err hres hknp hsr (hsleep attempt hltj)]
        exact ih (attempt + 1) (acc ++ [callOf evt]) hltj (by push_cast at hsum ⊢; omega)

/-- Loop invariant: every insert call recorded by the retry loop carries
the decoded event, so its fields obey whatever the decoded event obeys. -/
theorem processLoop_insert_calls (rc : RetryConfig) (env : ProcEnv) (msg : KafkaMessage)
    (evt : Event) :
    ∀ (fuel attempt : ℕ) (acc : List InsertCall),
      ∀ c ∈ (processLoop rc env msg evt attempt fuel acc).insertCalls,
        c ∈ acc ∨ c = callOf evt := by
  intro fuel
  induction fuel with
  | zero =>
      intro attempt acc c hc
      rw [processLoop_fuelZero] at hc
      exact Or.inl hc
  | succ fuel ih =>
      intro attempt acc c hc
      rcases hres : env.insertResult attempt with _ | lastErr
      · rw [processLoop_succOk rc env msg evt attempt fuel acc hres] at hc
        simpa using hc
      · by_cases hkp : Classify (some lastErr) = .permanent
        · rw [processLoop_succPerm rc env msg evt attempt fuel acc lastErr hres hkp] at hc
          simpa using hc
        · rcases hsr : rc.ShouldRetry (Classify (some lastErr)) (attempt : Int) with _ | _
          · rw [processLoop_succExhaust rc env msg evt attempt fuel acc lastErr hres hkp hsr] at hc
            simpa using hc
          · rcases hsc : env.sleepCancelled attempt with _ | _
            · rw [processLoop_succStep rc env msg evt attempt fuel acc lastErr hres hkp hsr hsc] at hc
              rcases ih (attempt + 1) (acc ++ [callOf evt]) c hc with h | h
              · rcases List.mem_append.mp h with h2 | h2
                · exact Or.inl h2
                · simpa using Or.inr (List.mem_singleton.mp h2)
              · exact Or.inr h
            · rw [processLoop_succCancel rc env msg evt attempt fuel acc lastErr hres hkp hsr hsc] at hc
              simpa using hc

/-- Unfolding equation: a record whose value does not decode is routed
to the DLQ as a poison pill and committed, with no insert call. -/
theorem processMessage_decodeErr (rc : RetryConfig) (env : ProcEnv) (msg : KafkaMessage)
    (e : GoError) (hdec : env.decode msg.value = .error e) :
    processMessage rc env msg =
      { insertCalls := []
        dlqSends := [buildDLQEnvelope msg e .permanent 0 env.now]
        commitCalled := true } := by
  rw [processMessage, hdec]

/-- Unfolding equation: a decoded record with an empty event_id or
event_type is routed to the DLQ as a poison pill and committed, with no
insert call. -/
theorem processMessage_missingFields (rc : RetryConfig) (env : ProcEnv) (msg : KafkaMessage)
    (evt : Event) (hdec : env.decode msg.value = .ok evt)
    (h : evt.eventID = "" ∨ evt.eventType = "") :
    processMessage rc env msg =
      { insertCalls := []
        dlqSends := [buildDLQEnvelope msg (.processingNil .permanent "missing required fields") .permanent 0 env.now]
        commitCalled := true } := by
  rw [processMessage, hdec]
  simp [h.elim (fun h2 => Or.inl h2) (fun h2 => Or.inr h2)]

/-- Unfolding equation: a decoded record with both required fields
present enters the bounded retry loop at attempt 0. -/
theorem processMessage_okLoop (rc : RetryConfig) (env : ProcEnv) (msg : KafkaMessage)
    (evt : Event) (hdec : env.decode msg.value = .ok evt)
    (hid : ¬ evt.eventID = "") (hty : ¬ evt.eventType = "") :
    processMessage rc env msg = processLoop rc env msg evt 0 (rc.MaxRetries.toNat + 1) [] := by
  rw [processMessage, hdec]
  simp [hid, hty]

/-- The record and environment exhibiting the DLQ-write-failure commit:
a poison-pill record while the DLQ producer is failing. -/
def c1Msg : KafkaMessage :=
  { topic := "events", partition := 1, offset := 100, key := "user-123", value := [123] }

/-- Environment for the DLQ-write-failure scenario: the value does not
decode, and the dead-letter send returns an error. -/
def c1Env : ProcEnv :=
  { decode := fun _ => .error (.plain "invalid character looking for beginning of value")
    insertResult := fun _ => none
    dlqSendErr := some (.plain "write to DLQ topic events.dlq: broker unavailable")
    commitErr := none
    sleepCancelled := fun _ => false
    now := 7 }

/-- C1: the spec demands that when the DLQ send fails the offset is not
committed, but the source function sendToDLQ logs and discards the Send
error and processMessage then calls commitAndLog unconditionally: on a
record routed to the DLQ whose send fails, a DLQ write is attempted,
the offset commit is still performed, and the whole trace is
independent of the DLQ send result. -/
theorem dlq_send_failure_still_commits :
    c1Env.dlqSendErr = some (.plain "write to DLQ topic events.dlq: broker unavailable") ∧
    (processMessage DefaultRetryConfig c1Env c1Msg).dlqSends ≠ [] ∧
    (processMessage DefaultRetryConfig c1Env c1Msg).commitCalled = true ∧
    ∀ d : Option GoError,
      processMessage DefaultRetryConfig
        { decode := c1Env.decode, insertResult := c1Env.insertResult, dlqSendErr := d,
          commitErr := c1Env.commitErr, sleepCancelled := c1Env.sleepCancelled, now := c1Env.now }
        c1Msg = processMessage DefaultRetryConfig c1Env c1Msg := by
  exact ⟨rfl, by decide, by decide, fun d => rfl⟩

/-- C2: a record whose value does not decode, or decodes with an empty
event_id or event_type, produces zero store-insert calls, is routed to
the DLQ with error_kind permanent and retries 0, and the offset is then
committed. -/
theorem poison_pill_zero_inserts_dlq_commit :
    (∀ (rc : RetryConfig) (env : ProcEnv) (msg : KafkaMessage) (e : GoError),
      env.decode msg.value = .error e →
      (processMessage rc env msg).insertCalls = [] ∧
      (∃ d, (processMessage rc env msg).dlqSends = [d] ∧
        d.ErrorKind = "permanent" ∧ d.Retries = 0) ∧
      (processMessage rc env msg).commitCalled = true) ∧
    (∀ (rc : RetryConfig) (env : ProcEnv) (msg : KafkaMessage) (evt : Event),
      env.decode msg.value = .ok evt → (evt.eventID = "" ∨ evt.eventType = "") →
      (processMessage rc env msg).insertCalls = [] ∧
      (∃ d, (processMessage rc env msg).dlqSends = [d] ∧
        d.ErrorKind = "permanent" ∧ d.Retries = 0) ∧
      (processMessage rc env msg).commitCalled = true) := by
  constructor
  · intro rc env msg e hdec
    rw [processMessage_decodeErr rc env msg e hdec]
    exact ⟨rfl, ⟨_, rfl, rfl, rfl⟩, rfl⟩
  · intro rc env msg evt hdec hmiss
    rw [processMessage_missingFields rc env msg evt hdec hmiss]
    exact ⟨rfl, ⟨_, rfl, rfl, rfl⟩, rfl⟩

/-- Concrete poison-pill environment for the C2 witness. -/
def c2Env : ProcEnv :=
  { decode := fun _ => .error (.plain "invalid character after top-level value")
    insertResult := fun _ => none
    dlqSendErr := none
    commitErr := none
    sleepCancelled := fun _ => false
    now := 3 }

/-- Witness for C2 at a concrete poison-pill record. -/
theorem poison_pill_zero_inserts_dlq_commit_witness :
    (processMessage DefaultRetryConfig c2Env c1Msg).insertCalls = [] ∧
    (∃ d, (processMessage DefaultRetryConfig c2Env c1Msg).dlqSends = [d] ∧
      d.ErrorKind = "permanent" ∧ d.Retries = 0) ∧
    (processMessage DefaultRetryConfig c2Env c1Msg).commitCalled = true :=
  poison_pill_zero_inserts_dlq_commit.1 DefaultRetryConfig c2Env c1Msg
    (.plain "invalid character after top-level value") rfl

/-- C3: the retries field of a DLQ envelope equals the number of store
attempts made, which is n + 1 for a fatal decision at 0-indexed attempt
n: any store-attempt termination records exactly the number of insert
calls; an immediately-permanent failure at attempt 0 records 1; an
all-transient run with budget MaxRetries records MaxRetries + 1; and
the two validation failures record 0. -/
theorem dlq_retries_counts_attempts :
    (∀ (rc : RetryConfig) (env : ProcEnv) (msg : KafkaMessage),
      ∀ e ∈ (processMessage rc env msg).dlqSends,
        (processMessage rc env msg).insertCalls ≠ [] →
        e.Retries = ((processMessage rc env msg).insertCalls.length : Int)) ∧
    (∀ (rc : RetryConfig) (env : ProcEnv) (msg : KafkaMessage) (evt : Event) (err : GoError),
      env.decode msg.value = .ok evt → ¬ evt.eventID = "" → ¬ evt.eventType = "" →
      env.insertResult 0 = some err → Classify (some err) = .permanent →
      ∃ e, (processMessage rc env msg).dlqSends = [e] ∧ e.Retries = 1) ∧
    (∀ (rc : RetryConfig) (env : ProcEnv) (msg : KafkaMessage) (evt : Event),
      env.decode msg.value = .ok evt → ¬ evt.eventID = "" → ¬ evt.eventType = "" →
      (∀ n : ℕ, ∃ err, env.insertResult n = some err ∧ Classify (some err) = .transient) →
      (∀ n : ℕ, env.sleepCancelled n = false) →
      0 ≤ rc.MaxRetries →
      ∃ e, (processMessage rc env msg).dlqSends = [e] ∧ e.Retries = rc.MaxRetries + 1) ∧
    (∀ (rc : RetryConfig) (env : ProcEnv) (msg : KafkaMessage) (e : GoError),
      env.decode msg.value = .error e →
      ∃ d, (processMessage rc env msg).dlqSends = [d] ∧ d.Retries = 0) ∧
    (∀ (rc : RetryConfig) (env : ProcEnv) (msg : KafkaMessage) (evt : Event),
      env.decode msg.value = .ok evt → (evt.eventID = "" ∨ evt.eventType = "") →
      ∃ d, (processMessage rc env msg).dlqSends = [d] ∧ d.Retries = 0) := by
  refine ⟨?_, ?_, ?_, ?_, ?_⟩
  · intro rc env msg e he hne
    rcases hdec : env.decode msg.value with e2 | evt
    · rw [processMessage_decodeErr rc env msg e2 hdec] at hne
      exact absurd rfl hne
    · by_cases hmiss : evt.eventID = "" ∨ evt.eventType = ""
      · rw [processMessage_missingFields rc env msg evt hdec hmiss] at hne
        exact absurd rfl hne
      · push_neg at hmiss
        rw [processMessage_okLoop rc env msg evt hdec hmiss.1 hmiss.2] at he ⊢
        exact processLoop_dlq_retries rc env msg evt (rc.MaxRetries.toNat + 1) 0 [] rfl e he
  · intro rc env msg evt err hdec hid hty hres hkp
    rw [processMessage_okLoop rc env msg evt hdec hid hty]
    rw [processLoop_succPerm rc env msg evt 0 rc.MaxRetries.toNat [] err hres hkp]
    exact ⟨_, rfl, by simp [buildDLQEnvelope]⟩
  · intro rc env msg evt hdec hid hty hins hsleep hM
    rw [processMessage_okLoop rc env msg evt hdec hid hty]
    obtain ⟨e, hd, hr, _, _⟩ :=
      processLoop_transient_exhausted rc env msg evt hins hsleep (rc.MaxRetries.toNat + 1) 0 []
        (by omega)
        (by push_cast [Int.toNat_of_nonneg hM]; omega)
    exact ⟨e, hd, hr⟩
  · intro rc env msg e hdec
    rw [processMessage_decodeErr rc env msg e hdec]
    exact ⟨_, rfl, rfl⟩
  · intro rc env msg evt hdec hmiss
    rw [processMessage_missingFields rc env msg evt hdec hmiss]
    exact ⟨_, rfl, rfl⟩

/-- Concrete environment for the C3 witness: every insert attempt fails
with a transient connection reset. -/
def c3Env : ProcEnv :=
  { decode := fun _ => .ok { eventID := "e2", eventType := "view", payload := [] }
    insertResult := fun _ => some (.plain "connection reset by peer")
    dlqSendErr := none
    commitErr := none
    sleepCancelled := fun _ => false
    now := 3 }

/-- Witness for C3: with MaxRetries 3 and an always-transient insert,
the envelope records 4 retries, matching scenario S5 of the spec. -/
theorem dlq_retries_counts_attempts_witness :
    ∃ e, (processMessage { DefaultRetryConfig with MaxRetries := 3 } c3Env c1Msg).dlqSends = [e] ∧
      e.Retries = (3 : Int) + 1 :=
  dlq_retries_counts_attempts.2.2.1 { DefaultRetryConfig with MaxRetries := 3 } c3Env c1Msg
    { eventID := "e2", eventType := "view", payload := [] } rfl
    (by decide) (by decide)
    (fun n => ⟨.plain "connection reset by peer", rfl, by decide⟩)
    (fun n => rfl) (by decide)

/-- C6: when the cancellation signal fires during the retry sleep after
a transient failure, the sleep returns the cancellation outcome instead
of completing, and the processing loop exits without committing the
record and without any DLQ attempt for it. -/
theorem sleep_cancellation_aborts_without_commit (rc : RetryConfig) (env : ProcEnv)
    (msg : KafkaMessage) (evt : Event) (j : ℕ)
    (hdec : env.decode msg.value = .ok evt)
    (hid : ¬ evt.eventID = "") (hty : ¬ evt.eventType = "")
    (hins : ∀ i : ℕ, i ≤ j → ∃ err, env.insertResult i = some err ∧ Classify (some err) = .transient)
    (hsleep : ∀ i : ℕ, i < j → env.sleepCancelled i = false)
    (hcj : env.sleepCancelled j = true)
    (hjM : (j : Int) < rc.MaxRetries) :
    RetryConfig.SleepModel true = SleepOutcome.canceledErr ∧
    (processMessage rc env msg).commitCalled = false ∧
    (processMessage rc env msg).dlqSends = [] := by
  refine ⟨rfl, ?_⟩
  rw [processMessage_okLoop rc env msg evt hdec hid hty]
  have hM : 0 ≤ rc.MaxRetries := le_trans (Int.ofNat_nonneg j) (le_of_lt hjM)
  exact processLoop_cancel_aborts rc env msg evt j hins hsleep hcj hjM
    (rc.MaxRetries.toNat + 1) 0 [] (Nat.zero_le j)
    (by push_cast [Int.toNat_of_nonneg hM]; omega)

/-- Concrete environment for the C6 witness: one transient failure, then
the shutdown signal fires during the first back-off sleep. -/
def c6Env : ProcEnv :=
  { decode := fun _ => .ok { eventID := "e1", eventType := "click", payload := [] }
    insertResult := fun _ => some (.plain "connection refused")
    dlqSendErr := none
    commitErr := none
    sleepCancelled := fun _ => true
    now := 3 }

/-- Witness for C6 at the first retry sleep under the default policy. -/
theorem sleep_cancellation_aborts_without_commit_witness :
    RetryConfig.SleepModel true = SleepOutcome.canceledErr ∧
    (processMessage DefaultRetryConfig c6Env c1Msg).commitCalled = false ∧
    (processMessage DefaultRetryConfig c6Env c1Msg).dlqSends = [] :=
  sleep_cancellation_aborts_without_commit DefaultRetryConfig c6Env c1Msg
    { eventID := "e1", eventType := "click", payload := [] } 0 rfl
    (by decide) (by decide)
    (fun i hi => ⟨.plain "connection refused", rfl, by decide⟩)
    (fun i hi => absurd hi (Nat.not_lt_zero i))
    rfl (by decide)

/-- Helper: wrapping does not change the result of the errors.As search
for a ProcessingError. -/
theorem wrapChain_asProcessing (ctxs : List String) (e : GoError) :
    (wrapChain ctxs e).asProcessing = e.asProcessing := by
  induction ctxs with
  | nil => rfl
  | cons c cs ih => simp [wrapChain, GoError.asProcessing, ih]

/-- Helper: the classifier returns the declared kind of the first
ProcessingError found in the chain. -/
theorem classify_of_asProcessing (err : GoError) (k : ErrorKind)
    (h : err.asProcessing = some k) : Classify (some err) = k := by
  simp [Classify, h]

/-- C4: the classifier applies its rules in order with first match
winning: an error that is, or wraps at any chain depth, a
ProcessingError is classified by its declared kind whatever its string
form; when the earlier rules do not apply, a string containing a
permanent substring yields Permanent with no condition on transient
substrings also being present; a nil error and an error matching no
rule are Transient. -/
theorem classify_rule_order :
    (∀ (ctxs : List String) (k : ErrorKind) (m : String) (c : GoError),
      Classify (some (wrapChain ctxs (.processing k m c))) = k) ∧
    (∀ err : GoError, err.asProcessing = none → err.isNet = false →
      err.isErr .ioUnexpectedEOFErr = false → err.isErr .ioEOFErr = false →
      err.isErr .econnrefused = false → err.isErr .econnreset = false →
      (strContains err.errString "unique constraint" = true ∨
       strContains err.errString "violates check constraint" = true ∨
       strContains err.errString "invalid input syntax" = true) →
      Classify (some err) = .permanent) ∧
    Classify none = .transient ∧
    (∀ err : GoError, err.asProcessing = none → err.isNet = false →
      err.isErr .ioUnexpectedEOFErr = false → err.isErr .ioEOFErr = false →
      err.isErr .econnrefused = false → err.isErr .econnreset = false →
      strContains err.errString "unique constraint" = false →
      strContains err.errString "violates check constraint" = false →
      strContains err.errString "invalid input syntax" = false →
      strContains err.errString "connection refused" = false →
      strContains err.errString "connection reset" = false →
      strContains err.errString "timeout" = false →
      strContains err.errString "too many clients" = false →
      Classify (some err) = .transient) := by
  refine ⟨?_, ?_, rfl, ?_⟩
  · intro ctxs k m c
    exact classify_of_asProcessing _ k (by rw [wrapChain_asProcessing]; rfl)
  · intro err h1 h2 h3 h4 h5 h6 hsub
    simp only [Classify, h1, h2, h3, h4, h5, h6]
    rcases hsub with h | h | h <;> simp [h]
  · intro err h1 h2 h3 h4 h5 h6 p1 p2 p3 t1 t2 t3 t4
    simp only [Classify, h1, h2, h3, h4, h5, h6, p1, p2, p3, t1, t2, t3, t4]
    simp

/-- Witness for C4: a wrapped transient ProcessingError keeps its kind;
a wrapped postgres message containing both a permanent and a transient
substring is Permanent; an unknown plain error is Transient. -/
theorem classify_rule_order_witness :
    Classify (some (wrapChain ["insert event e1: "]
      (.processing .transient "db busy" (.plain "x")))) = .transient ∧
    Classify (some (.wrapped "insert event e1: "
      (.plain "pq: duplicate key value violates unique constraint after timeout"))) = .permanent ∧
    Classify none = .transient ∧
    Classify (some (.plain "some entirely unknown failure")) = .transient :=
  ⟨classify_rule_order.1 ["insert event e1: "] .transient "db busy" (.plain "x"),
   classify_rule_order.2.1 (.wrapped "insert event e1: "
      (.plain "pq: duplicate key value violates unique constraint after timeout"))
      (by decide) (by decide) (by decide) (by decide) (by decide) (by decide)
      (Or.inl (by decide)),
   classify_rule_order.2.2.1,
   classify_rule_order.2.2.2 (.plain "some entirely unknown failure")
      (by decide) (by decide) (by decide) (by decide) (by decide) (by decide)
      (by decide) (by decide) (by decide) (by decide) (by decide) (by decide) (by decide)⟩

/-- C5: should_retry is true exactly when the kind is Transient and the
0-indexed attempt count is below max_retries; Permanent is never
retried; a zero-retry policy never permits a retry. -/
theorem should_retry_characterization :
    (∀ (rc : RetryConfig) (k : ErrorKind) (a : ℕ),
      rc.ShouldRetry k (a : Int) = true ↔ (k = .transient ∧ (a : Int) < rc.MaxRetries)) ∧
    (∀ (rc : RetryConfig) (a : ℕ), rc.ShouldRetry .permanent (a : Int) = false) ∧
    (∀ (b m mu j : ℚ) (k : ErrorKind) (a : ℕ),
      (RetryConfig.mk 0 b m mu j).ShouldRetry k (a : Int) = false) := by
  refine ⟨?_, ?_, ?_⟩
  · intro rc k a
    simp [RetryConfig.ShouldRetry]
  · intro rc a
    simp [RetryConfig.ShouldRetry]
  · intro b m mu j k a
    have h : ¬ ((a : Int) < 0) := by omega
    simp [RetryConfig.ShouldRetry, h]

/-- Witness for C5 at concrete kinds and attempts under the default
policy and a zero-retry policy. -/
theorem should_retry_characterization_witness :
    DefaultRetryConfig.ShouldRetry .transient ((3 : ℕ) : Int) = true ∧
    DefaultRetryConfig.ShouldRetry .permanent ((3 : ℕ) : Int) = false ∧
    (RetryConfig.mk 0 200 10000 2 (3/10)).ShouldRetry .transient ((0 : ℕ) : Int) = false :=
  ⟨(should_retry_characterization.1 DefaultRetryConfig .transient 3).mpr ⟨rfl, by decide⟩,
   should_retry_characterization.2.1 DefaultRetryConfig 3,
   should_retry_characterization.2.2 200 10000 2 (3/10) .transient 0⟩

/-- C7: the back-off delay is the exponential base * multiplier ^ n
clamped above by max_delay with jitter applied after clamping and a
below-zero result replaced by base_delay, and for every attempt and
every jitter draw it is bounded by max_delay * (1 + jitter_ratio). -/
theorem backoff_delay_capped (rc : RetryConfig) (n : ℕ) (rnd : ℚ)
    (hb0 : 0 ≤ rc.BaseDelay) (hbm : rc.BaseDelay ≤ rc.MaxDelay)
    (hj0 : 0 ≤ rc.JitterRatio) (hj1 : rc.JitterRatio ≤ 1)
    (hr0 : 0 ≤ rnd) (hr1 : rnd ≤ 1) :
    rc.BackoffDelay n rnd ≤ rc.MaxDelay * (1 + rc.JitterRatio) := by
  have hM0 : 0 ≤ rc.MaxDelay := le_trans hb0 hbm
  have hu1 : rnd * 2 - 1 ≤ 1 := by linarith
  have hu0 : -1 ≤ rnd * 2 - 1 := by linarith
  unfold RetryConfig.BackoffDelay
  set d0 := rc.BaseDelay * rc.Multiplier ^ n with hd0
  set d := if d0 > rc.MaxDelay then rc.MaxDelay else d0 with hd
  have hdmax : d ≤ rc.MaxDelay := by
    rw [hd]
    split
    · exact le_refl _
    · linarith [not_lt.mp (by assumption : ¬ d0 > rc.MaxDelay)]
  set u := rnd * 2 - 1 with hu
  set jittered := d + d * rc.JitterRatio * u with hjit
  by_cases hneg : jittered < 0
  · rw [if_pos hneg]
    nlinarith
  · rw [if_neg hneg]
    push_neg at hneg
    rcases le_or_lt 0 d with hdpos | hdneg
    · have h1 : d * rc.JitterRatio * u ≤ d * rc.JitterRatio :=
        mul_le_of_le_one_right (mul_nonneg hdpos hj0) hu1
      nlinarith
    · have h1 : 0 ≤ 1 + rc.JitterRatio * u := by nlinarith
      have h2 : jittered = d * (1 + rc.JitterRatio * u) := by rw [hjit]; ring
      have h3 : jittered ≤ 0 := by
        rw [h2]
        exact mul_nonpos_of_nonpos_of_nonneg (le_of_lt hdneg) h1
      nlinarith

/-- Witness for C7 at the default policy, attempt 10 (deep into the
clamp) and a maximal upward jitter draw. -/
theorem backoff_delay_capped_witness :
    DefaultRetryConfig.BackoffDelay 10 1 ≤
      DefaultRetryConfig.MaxDelay * (1 + DefaultRetryConfig.JitterRatio) :=
  backoff_delay_capped DefaultRetryConfig 10 1 (by decide) (by decide) (by decide)
    (by decide) (by decide) (by decide)

/-- Concrete envelope for the C9 counterexample: its original_value is
the valid but non-compact document of bytes for open brace, quote, a,
quote, colon, space, 1, close brace. -/
def c9Envelope : DLQMessage :=
  { OriginalTopic := "events"
    OriginalPartition := 1
    OriginalOffset := 100
    OriginalKey := "user-123"
    OriginalValue := [123, 34, 97, 34, 58, 32, 49, 125]
    ErrorMessage := "pq: unique constraint"
    ErrorKind := "permanent"
    Retries := 2
    FailedAt := 5 }

/-- The same envelope with an original_value that is not valid JSON (a
lone open brace, the shape of a poison-pill record). -/
def c9PoisonEnvelope : DLQMessage :=
  { c9Envelope with OriginalValue := [123] }

/-- C9 counterexample: serialize-then-deserialize is not byte-for-byte
on original_value, because json.Marshal re-encodes the RawMessage: the
space inside the document is elided, so the envelope comes back with
different original_value bytes; and an original_value that is not valid
JSON cannot be serialized at all. -/
theorem dlq_round_trip_not_byte_identical :
    c9Envelope.OriginalValue = [123, 34, 97, 34, 58, 32, 49, 125] ∧
    (encodeDLQ c9Envelope).bind decodeDLQ =
      some { c9Envelope with OriginalValue := [123, 34, 97, 34, 58, 49, 125] } ∧
    (encodeDLQ c9Envelope).bind decodeDLQ ≠ some c9Envelope ∧
    encodeDLQ c9PoisonEnvelope = none := by
  refine ⟨rfl, by decide, by decide, rfl⟩

/-- C9 (amended): serialize-then-deserialize preserves original_topic,
original_partition, original_offset, original_key, error_message,
error_kind, retries and failed_at exactly, while original_value comes
back as its JSON re-encoding (whitespace compacted and angle brackets
and ampersands escaped, as json.Marshal does to a RawMessage) — hence
byte-for-byte exactly when the bytes are already in that form — and
serialization fails, failing the DLQ send, when original_value is not
valid JSON. -/
theorem dlq_round_trip_modulo_reencoding :
    (∀ (e : DLQMessage) (w : List ℕ), rawMarshal e.OriginalValue = some w →
      (encodeDLQ e).bind decodeDLQ = some { e with OriginalValue := w }) ∧
    (∀ e : DLQMessage, rawMarshal e.OriginalValue = none → encodeDLQ e = none) ∧
    (∀ e : DLQMessage, rawMarshal e.OriginalValue = some e.OriginalValue →
      (encodeDLQ e).bind decodeDLQ = some e) := by
  have h1 : ∀ (e : DLQMessage) (w : List ℕ), rawMarshal e.OriginalValue = some w →
      (encodeDLQ e).bind decodeDLQ = some { e with OriginalValue := w } := by
    intro e w h
    unfold encodeDLQ
    rw [h]
    rfl
  refine ⟨h1, ?_, ?_⟩
  · intro e h
    unfold encodeDLQ
    rw [h]
  · intro e h
    exact h1 e e.OriginalValue h

/-- Envelope for the C9 witness: original_value already in compact
escaped form, so the round trip is the identity. -/
def c9CompactEnvelope : DLQMessage :=
  { c9Envelope with OriginalValue := [123, 34, 97, 34, 58, 49, 125] }

/-- Witness for the amended C9 at a concrete already-compact envelope. -/
theorem dlq_round_trip_modulo_reencoding_witness :
    (encodeDLQ c9CompactEnvelope).bind decodeDLQ = some c9CompactEnvelope :=
  dlq_round_trip_modulo_reencoding.2.2 c9CompactEnvelope (by decide)

/-- C10: the substring rules of the classifier match case-sensitively:
an error text carrying the permanent marker only in upper case contains
no lower-case rule substring, falls through every substring rule, and is
classified Transient by the default, while the same text in lower case
is Permanent. -/
theorem classify_substring_case_sensitive :
    strContains "pq: DUPLICATE KEY VALUE VIOLATES UNIQUE CONSTRAINT" "UNIQUE CONSTRAINT" = true ∧
    strContains "pq: DUPLICATE KEY VALUE VIOLATES UNIQUE CONSTRAINT" "unique constraint" = false ∧
    Classify (some (.plain "pq: DUPLICATE KEY VALUE VIOLATES UNIQUE CONSTRAINT")) = .transient ∧
    Classify (some (.plain "pq: duplicate key value violates unique constraint")) = .permanent := by
  refine ⟨by decide, by decide, by decide, by decide⟩

/-- Environment for the C8 counterexample: a record that decodes to an
event whose event_id is a non-empty string that is not a UUID, with a
store that accepts the insert. -/
def c8Env : ProcEnv :=
  { decode := fun _ => .ok { eventID := "zzz", eventType := "click", payload := [] }
    insertResult := fun _ => none
    dlqSendErr := none
    commitErr := none
    sleepCancelled := fun _ => false
    now := 3 }

/-- C8 counterexample: the consumer loop checks only non-emptiness, so a
record whose event_id is not a valid UUID is still passed to the store
insert, the insert succeeds, and the offset is committed as persisted —
contradicting the claim that an Event with an invalid UUID is never
passed to the store insert or persisted. -/
theorem consumer_inserts_non_uuid_event :
    isValidUUID "zzz" = false ∧
    (processMessage DefaultRetryConfig c8Env c1Msg).insertCalls =
      [{ eventID := "zzz", eventType := "click", payload := [] }] ∧
    (processMessage DefaultRetryConfig c8Env c1Msg).dlqSends = [] ∧
    (processMessage DefaultRetryConfig c8Env c1Msg).commitCalled = true := by
  refine ⟨by decide, by decide, by decide, by decide⟩

/-- C8 (amended): the consumer passes an Event to the store insert only
when its event_id and event_type are non-empty; UUID validity is not
enforced by the consumer but by the ingestion handler, which publishes a
request only when its event_id parses as a UUID. -/
theorem insert_nonempty_fields_uuid_checked_at_ingestion :
    (∀ (rc : RetryConfig) (env : ProcEnv) (msg : KafkaMessage),
      ∀ c ∈ (processMessage rc env msg).insertCalls,
        ¬ c.eventID = "" ∧ ¬ c.eventType = "") ∧
    (∀ (body : Except GoError EventRequest) (req : EventRequest),
      HandleEvent body = .accepted req → isValidUUID req.eventID = true) := by
  constructor
  · intro rc env msg c hc
    rcases hdec : env.decode msg.value with e | evt
    · rw [processMessage_decodeErr rc env msg e hdec] at hc
      simp at hc
    · by_cases hmiss : evt.eventID = "" ∨ evt.eventType = ""
      · rw [processMessage_missingFields rc env msg evt hdec hmiss] at hc
        simp at hc
      · push_neg at hmiss
        rw [processMessage_okLoop rc env msg evt hdec hmiss.1 hmiss.2] at hc
        rcases processLoop_insert_calls rc env msg evt (rc.MaxRetries.toNat + 1) 0 [] c hc with h | h
        · simp at h
        · subst h
          exact hmiss
  · intro body req h
    rcases body with e | r
    · simp [HandleEvent] at h
    · simp only [HandleEvent] at h
      by_cases hu : isValidUUID r.eventID
      · rw [if_pos hu] at h
        injection h with h2
        subst h2
        exact hu
      · rw [if_neg hu] at h
        cases h

/-- Environment for the C8 witness: a record carrying a well-formed
UUID, persisted on the first attempt. -/
def c8WEnv : ProcEnv :=
  { decode := fun _ => .ok
      { eventID := "123e4567-e89b-12d3-a456-426614174000", eventType := "click", payload := [] }
    insertResult := fun _ => none
    dlqSendErr := none
    commitErr := none
    sleepCancelled := fun _ => false
    now := 3 }

/-- The concrete insert call of the C8 witness. -/
def c8Call : InsertCall :=
  { eventID := "123e4567-e89b-12d3-a456-426614174000", eventType := "click", payload := [] }

/-- The concrete ingestion request of the C8 witness. -/
def c8Req : EventRequest :=
  { eventID := "123e4567-e89b-12d3-a456-426614174000", eventType := "click", payload := [] }

/-- Witness for the amended C8 at a concrete insert call and a concrete
accepted ingestion request. -/
theorem insert_nonempty_fields_uuid_checked_at_ingestion_witness :
    (¬ c8Call.eventID = "" ∧ ¬ c8Call.eventType = "") ∧
    isValidUUID c8Req.eventID = true :=
  ⟨insert_nonempty_fields_uuid_checked_at_ingestion.1 DefaultRetryConfig c8WEnv c1Msg
      c8Call (by decide),
   insert_nonempty_fields_uuid_checked_at_ingestion.2 (.ok c8Req) c8Req (by decide)⟩

end EventAnalytics
